import Mathlib

/-!
Verification development for the batch task-type driver
(`cms/service/TaskType.py`): the whitespace-tolerant comparator
`white_diff`, the compile pipeline `compile`, and the evaluate pipeline
`execute` / `execute_single`, shallowly embedded as pure Lean functions.

Files read line by line are modelled as lists of lines, a line being a
list of characters; `readline` on an exhausted stream yields the empty
string, so the empty line value plays the role of the EOF marker, exactly
as in the source's read loop.

Effectful collaborators (sandbox, store, session, UTF-8 decoding, float
parsing, the ANSI filter) are modelled by environment records whose fields
fix the result of each external call of one run; the driver functions are
then pure functions of the environment and the submission state.
-/

namespace CMS

/-- Whitespace set of the white diff algorithm (the source's `WHITES = " \t\n"`). -/
def isWhite (c : Char) : Bool := c = ' ' || c = '\t' || c = '\n'

/-- Replacement pass of `white_diff_canonicalize`: every whitespace other than
the first of `WHITES` (that is, tab and newline) is replaced by a space.
Since the replacement is one character for one character, the Python
`str.replace` loop is a character map. -/
def whiteToSpace (c : Char) : Char := if c = '\t' || c = '\n' then ' ' else c

/-- Python `s.split(' ')` on a character list: cut at every single space,
keeping empty pieces. -/
def splitOnSpace : List Char → List (List Char)
  | [] => [[]]
  | c :: cs =>
    if c = ' ' then [] :: splitOnSpace cs
    else
      match splitOnSpace cs with
      | [] => [[c]]
      | t :: ts => (c :: t) :: ts

/-- Python `s.strip(WHITES)`: drop leading and trailing whitespace characters. -/
def pyStripWhites (l : List Char) : List Char :=
  ((l.dropWhile isWhite).reverse.dropWhile isWhite).reverse

/-- The source's `white_diff_canonicalize`: replace every whitespace by a
space, split at spaces, drop the empty tokens and rejoin with single
spaces. -/
def white_diff_canonicalize (s : List Char) : List Char :=
  let s := s.map whiteToSpace
  List.intercalate [' '] ((splitOnSpace s).filter (fun x => x ≠ []))

/-- Token list of a line: the nonempty pieces produced by the canonicalizer.
`white_diff_canonicalize` is exactly `List.intercalate [' ']` of this list. -/
def lineTokens (s : List Char) : List (List Char) :=
  (splitOnSpace (s.map whiteToSpace)).filter (fun x => x ≠ [])

/-- Tail phase of the source's `white_diff` loop, entered once one of the two
streams is exhausted: from then on that stream's `readline` yields the empty
string, so the loop keeps reading the other stream, succeeding when it reads
the empty string or a line of pure whitespace, failing otherwise. -/
def white_diff_rest : List (List Char) → Bool
  | [] => true
  | lres :: res =>
    if lres = [] then true
    else if pyStripWhites lres ≠ [] then false
    else white_diff_rest res

/-- The source's `white_diff` over two files given as lists of lines.
The three cases of the loop body are the three cases of the match: both
`readline`s empty, exactly one empty, both nonempty. -/
def white_diff : List (List Char) → List (List Char) → Bool
  | [], res => white_diff_rest res
  | lout :: output, [] => white_diff_rest (lout :: output)
  | lout :: output, lres :: res =>
    if lres = [] ∧ lout = [] then true
    else if lres = [] ∨ lout = [] then
      if pyStripWhites lout ≠ [] ∨ pyStripWhites lres ≠ [] then false
      else white_diff output res
    else if white_diff_canonicalize lout ≠ white_diff_canonicalize lres then false
    else white_diff output res

/-- Fuel-indexed rendering of the source's `while True` read loop, one fuel
unit per iteration; `none` means the loop has not returned within the given
number of iterations.  `readline` is `headD []` / `tail`. -/
def white_diffF : Nat → List (List Char) → List (List Char) → Option Bool
  | 0, _, _ => none
  | n + 1, output, res =>
    if res.headD [] = [] ∧ output.headD [] = [] then some true
    else if res.headD [] = [] ∨ output.headD [] = [] then
      if pyStripWhites (output.headD []) ≠ [] ∨ pyStripWhites (res.headD []) ≠ [] then some false
      else white_diffF n output.tail res.tail
    else if white_diff_canonicalize (output.headD []) ≠ white_diff_canonicalize (res.headD []) then
      some false
    else white_diffF n output.tail res.tail

/-- Exit statuses reported by the sandbox (`Sandbox.EXIT_*`). -/
inductive ExitStatus
  | ok
  | timeout
  | signal
  | sandboxError
  | syscall
  | fileAccess
deriving DecidableEq

/-- How a call to `compile` or `execute_single` terminates: a returned
boolean, or one of the exceptions the source can raise (`JobException`
from the safe-sandbox helpers; `TypeError` from calling a string attribute;
`IndexError` / `KeyError` from out-of-range subscripts). -/
inductive PyResult
  | ret (b : Bool)
  | jobException
  | typeError
  | indexError
  | keyError
deriving DecidableEq

/-- An `Evaluation` record: outcome and text are `none` until written. -/
structure Evaluation where
  outcome : Option ℚ
  text : Option String
  num : Nat
deriving DecidableEq

/-- A testcase: input and expected-output digests. -/
structure Testcase where
  input : String
  output : String
deriving DecidableEq

/-- The task data the driver reads. -/
structure TaskRec where
  testcases : List Testcase
  managers : List (String × String)
deriving DecidableEq

/-- The submission state the driver reads and mutates.  `files` and
`executables` are the name-to-digest mappings, as association lists. -/
structure Submission where
  files : List (String × String)
  executables : List (String × String)
  evaluations : List Evaluation
  task : TaskRec
  compilationOutcome : Option String
  compilationText : Option String
deriving DecidableEq

/-- Records staged in the session by the driver. -/
inductive Staged
  | executable (digest : String) (filename : String)
  | evaluation (num : Nat)
deriving DecidableEq

/-- Environment of one `compile` run: the outcome of every external call the
pipeline makes, in the order the source makes them.  A `false` or `none`
field means the underlying operation raises `(OSError, IOError)`, which the
enclosing safe helper turns into a `JobException`.  `decode` models Python's
`text.decode("utf-8")`, `none` meaning `UnicodeDecodeError`. -/
structure CompileEnv where
  verifyValid : Bool
  language : Option String
  createSandboxOk : Bool
  stageSourceOk : Bool
  executeOk : Bool
  exitStatus : ExitStatus
  exitCode : Int
  killingSignal : Int
  stats : String
  stdoutRead : Option String
  stderrRead : Option String
  storeExecutable : Option String
  decode : String → Option String

/-- The source's `finish_compilation`.  When `success` it records the
compilation outcome and then decodes `text`; the source's
`UnicodeDecodeError` branch calls `self.submission.compilation_text(...)`
as a function instead of assigning it, so it raises `TypeError` — modelled
by `PyResult.typeError` (note the outcome has already been mutated). -/
def finish_compilation (env : CompileEnv) (sub : Submission)
    (success : Bool) (compilation_success : Bool) (text : String) :
    PyResult × Submission :=
  if success = false then (.ret false, sub)
  else
    let sub :=
      if compilation_success then { sub with compilationOutcome := some "ok" }
      else { sub with compilationOutcome := some "fail" }
    match env.decode text with
    | some decoded => (.ret true, { sub with compilationText := some decoded })
    | none => (.typeError, sub)

/-- The source's `BatchTaskType.compile`.  Sandbox configuration assignments
are pure field writes with no observable effect in this model and are
omitted; every observable step (validation, staging, execution, reads,
classification, session writes) is kept in source order. -/
def compile (env : CompileEnv) (sub : Submission) (session : List Staged) :
    PyResult × Submission × List Staged :=
  match env.language with
  | none =>
    let r := finish_compilation env sub true false "Invalid files in submission"
    (r.1, r.2, session)
  | some language =>
    if env.verifyValid = false then
      let r := finish_compilation env sub true false "Invalid files in submission"
      (r.1, r.2, session)
    else if sub.files.length ≠ 1 then
      let r := finish_compilation env sub true false "Invalid files in submission"
      (r.1, r.2, session)
    else
      let source_filename := (sub.files.headD ("", "")).1
      let executable_filename := source_filename.replace ("." ++ language) ""
      if env.createSandboxOk = false then (.jobException, sub, session)
      else if env.stageSourceOk = false then (.jobException, sub, session)
      else if env.executeOk = false then (.jobException, sub, session)
      else
        let exit_status := env.exitStatus
        let exit_code := env.exitCode
        match env.stdoutRead with
        | none => (.jobException, sub, session)
        | some stdout0 =>
          let stdout := if stdout0.trim = "" then "(empty)\n" else stdout0
          match env.stderrRead with
          | none => (.jobException, sub, session)
          | some stderr0 =>
            let stderr := if stderr0.trim = "" then "(empty)\n" else stderr0
            if exit_status = .ok ∧ exit_code = 0 then
              match env.storeExecutable with
              | none => (.jobException, sub, session)
              | some digest =>
                let session := session ++ [Staged.executable digest executable_filename]
                let r := finish_compilation env sub true true
                  ("OK " ++ env.stats ++ "\nCompiler standard output:\n" ++ stdout ++
                   "\nCompiler standard error:\n" ++ stderr)
                (r.1, r.2, session)
            else if exit_status = .ok then
              let r := finish_compilation env sub true false
                ("Failed " ++ env.stats ++ "\nCompiler standard output:\n" ++ stdout ++
                 "\nCompiler standard error:\n" ++ stderr)
              (r.1, r.2, session)
            else if exit_status = .timeout then
              let r := finish_compilation env sub true false
                ("Time out " ++ env.stats ++ "\nCompiler standard output:\n" ++ stdout ++
                 "\nCompiler standard error:\n" ++ stderr)
              (r.1, r.2, session)
            else if exit_status = .signal then
              let r := finish_compilation env sub true false
                ("Killed with signal " ++ toString env.killingSignal ++ " " ++ env.stats ++
                 "\nThis could be triggered by violating memory limits\nCompiler standard output:\n" ++
                 stdout ++ "\nCompiler standard error:\n" ++ stderr)
              (r.1, r.2, session)
            else if exit_status = .sandboxError then
              let r := finish_compilation env sub false false ""
              (r.1, r.2, session)
            else if exit_status = .syscall then
              let r := finish_compilation env sub false false ""
              (r.1, r.2, session)
            else if exit_status = .fileAccess then
              let r := finish_compilation env sub false false ""
              (r.1, r.2, session)
            else
              let r := finish_compilation env sub false false ""
              (r.1, r.2, session)

/-- Environment of one `execute_single` run.  `managerStdoutLine` and
`managerStderrLine` are the first lines of the grader's captured stdout and
stderr; `none` means `UnicodeDecodeError` while reading them.  `parseFloat`
models Python's `float(...)`, `none` meaning `ValueError`; it is applied to
the stripped stdout line.  `filterAnsiEscape` is modelled from the spec:
`filter_ansi_escape` (in `cms.service.Utils`, not under src/) strips ANSI
CSI sequences from grader stderr; here it is an environment-supplied
function, applied where the source applies it. -/
structure ExecEnv where
  createSandboxOk : Bool
  stageExecutableOk : Bool
  stageInputOk : Bool
  executeOk : Bool
  exitStatus : ExitStatus
  exitCode : Int
  killingSignal : Int
  outputExists : Bool
  stageResOk : Bool
  getOutputOk : Bool
  outputFile : List (List Char)
  getResOk : Bool
  resFile : List (List Char)
  stageManagerOk : Bool
  managerExecuteOk : Bool
  managerStdoutLine : Option String
  managerStderrLine : Option String
  parseFloat : String → Option ℚ
  filterAnsiEscape : String → String

/-- The source's `finish_single_execution`: on success it writes text and
outcome into `evaluations[test_number]` (an out-of-range subscript would
raise `IndexError`) and returns `True`; on failure it returns `False`
without touching the evaluation. -/
def finish_single_execution (sub : Submission) (test_number : Nat)
    (success : Bool) (outcome : ℚ) (text : String) : PyResult × Submission :=
  if success = false then (.ret false, sub)
  else
    match sub.evaluations[test_number]? with
    | none => (.indexError, sub)
    | some ev =>
      (.ret true,
       { sub with evaluations :=
          sub.evaluations.set test_number { ev with text := some text, outcome := some outcome } })

/-- Scoring phase of `execute_single` (source lines 393-444): stage the
expected output as `res.txt`, then either compare with `white_diff` (no
manager) or stage and run the manager in the same sandbox and parse its
output.  The third component counts the `sandbox.execute` calls of the whole
`execute_single` run; the candidate's run has already contributed one, the
manager's run adds a second. -/
def execute_single_scoring (env : ExecEnv) (sub : Submission) (test_number : Nat) :
    PyResult × Submission × Nat :=
  if env.stageResOk = false then (.jobException, sub, 1)
  else
    match sub.task.managers with
    | [] =>
      if env.getOutputOk = false then (.jobException, sub, 1)
      else if env.getResOk = false then (.jobException, sub, 1)
      else if white_diff env.outputFile env.resFile then
        let r := finish_single_execution sub test_number true 1 "Output file is correct"
        (r.1, r.2, 1)
      else
        let r := finish_single_execution sub test_number true 0 "Output file isn't correct"
        (r.1, r.2, 1)
    | _manager :: _ =>
      if env.stageManagerOk = false then (.jobException, sub, 1)
      else if env.managerExecuteOk = false then (.jobException, sub, 2)
      else
        match env.managerStdoutLine with
        | none =>
          let r := finish_single_execution sub test_number false 0 ""
          (r.1, r.2, 2)
        | some outcome_line =>
          match env.managerStderrLine with
          | none =>
            let r := finish_single_execution sub test_number false 0 ""
            (r.1, r.2, 2)
          | some stderr_line =>
            let text := env.filterAnsiEscape stderr_line
            match env.parseFloat outcome_line.trim with
            | none =>
              let r := finish_single_execution sub test_number false 0 ""
              (r.1, r.2, 2)
            | some outcome =>
              let r := finish_single_execution sub test_number true outcome text
              (r.1, r.2, 2)

/-- Report phase of `execute_single` (source lines 341-391): read the exit
report of the candidate's run and classify it; on OK with `output.txt`
present, fall through to the scoring phase. -/
def execute_single_report (env : ExecEnv) (sub : Submission) (test_number : Nat) :
    PyResult × Submission × Nat :=
  let _exit_code := env.exitCode
  if env.exitStatus = .timeout then
    let r := finish_single_execution sub test_number true 0 "Execution timed out\n"
    (r.1, r.2, 1)
  else if env.exitStatus = .signal then
    let r := finish_single_execution sub test_number true 0
      ("Execution killed with signal " ++ toString env.killingSignal ++ "\n")
    (r.1, r.2, 1)
  else if env.exitStatus = .sandboxError then
    let r := finish_single_execution sub test_number false 0 ""
    (r.1, r.2, 1)
  else if env.exitStatus = .syscall then
    let r := finish_single_execution sub test_number true 0
      "Execution killed because of forbidden syscall"
    (r.1, r.2, 1)
  else if env.exitStatus = .fileAccess then
    let r := finish_single_execution sub test_number true 0
      "Execution killed because of forbidden file access"
    (r.1, r.2, 1)
  else if env.exitStatus ≠ .ok then
    let r := finish_single_execution sub test_number false 0 ""
    (r.1, r.2, 1)
  else if env.outputExists = false then
    let r := finish_single_execution sub test_number true 0
      "Execution didn't produce file output.txt"
    (r.1, r.2, 1)
  else execute_single_scoring env sub test_number

/-- The source's `BatchTaskType.execute_single` (lines 316-444), as the setup
phase (fresh sandbox, stage executable and input, run the candidate) followed
by the report and scoring phases above.  The third component of the result
counts the `sandbox.execute` calls issued during the run.
`executable_filename` is the attribute set by `execute`; the dictionary
subscript on `executables` is an association-list lookup (`KeyError` when
absent). -/
def execute_single (env : ExecEnv) (sub : Submission) (test_number : Nat)
    (executable_filename : String) : PyResult × Submission × Nat :=
  if env.createSandboxOk = false then (.jobException, sub, 0)
  else
    match sub.executables.find? (fun p => p.1 == executable_filename) with
    | none => (.keyError, sub, 0)
    | some _ =>
      if env.stageExecutableOk = false then (.jobException, sub, 0)
      else
        match sub.task.testcases[test_number]? with
        | none => (.indexError, sub, 0)
        | some _ =>
          if env.stageInputOk = false then (.jobException, sub, 0)
          else if env.executeOk = false then (.jobException, sub, 1)
          else execute_single_report env sub test_number

/-- The source's `finish_evaluation`: just passes the success flag through. -/
def finish_evaluation (success : Bool) : Bool :=
  if success = false then false else true

/-- Loop of `execute` that creates the missing empty `Evaluation` records:
each `session.add(Evaluation(...))` stages a record and, through the
`submission=` back-reference, appends it to `submission.evaluations`. -/
def add_empty_evaluations (sub : Submission) (session : List Staged) :
    List Nat → Submission × List Staged
  | [] => (sub, session)
  | tn :: rest =>
    add_empty_evaluations
      { sub with evaluations := sub.evaluations ++ [{ outcome := none, text := none, num := tn }] }
      (session ++ [Staged.evaluation tn]) rest

/-- Main loop of `execute`: run `execute_single` on each testcase index in
order; a `False` return aborts with `finish_evaluation(False)`, an exception
propagates. -/
def execute_loop (env : Nat → ExecEnv) (executable_filename : String) :
    List Nat → Submission → PyResult × Submission
  | [], sub => (.ret (finish_evaluation true), sub)
  | tn :: rest, sub =>
    match execute_single (env tn) sub tn executable_filename with
    | (PyResult.ret true, sub2, _) => execute_loop env executable_filename rest sub2
    | (PyResult.ret false, sub2, _) => (.ret (finish_evaluation false), sub2)
    | (e, sub2, _) => (e, sub2)

/-- The source's `BatchTaskType.execute`: require exactly one executable,
pad `evaluations` with empty records up to the number of testcases, then
drive `execute_single` over every testcase index in order.  Each testcase
gets its own sandbox, hence its own environment `env tn`. -/
def execute (env : Nat → ExecEnv) (sub : Submission) (session : List Staged) :
    PyResult × Submission × List Staged :=
  if sub.executables.length ≠ 1 then (.ret (finish_evaluation false), sub, session)
  else
    let executable_filename := (sub.executables.headD ("", "")).1
    let p := add_empty_evaluations sub session
      (List.range' sub.evaluations.length (sub.task.testcases.length - sub.evaluations.length))
    let r := execute_loop env executable_filename (List.range p.1.task.testcases.length) p.1
    (r.1, r.2, p.2)

/-- A compile environment in which every external operation succeeds, the
sandbox reports OK with exit code 0, and every text decodes. -/
def baseCompileEnv : CompileEnv :=
  { verifyValid := true, language := some "c", createSandboxOk := true,
    stageSourceOk := true, executeOk := true, exitStatus := .ok, exitCode := 0,
    killingSignal := 0, stats := "stats", stdoutRead := some "out",
    stderrRead := some "err", storeExecutable := some "exedig",
    decode := fun s => some s }

/-- A submission with exactly one source file, as `compile` expects. -/
def compileSub : Submission :=
  { files := [("a.c", "srcdig")], executables := [], evaluations := [],
    task := { testcases := [], managers := [] },
    compilationOutcome := none, compilationText := none }

/-- An execute environment in which every external operation succeeds and the
sandbox reports OK; the grader fields are present but its stdout does not
parse as a float. -/
def baseExecEnv : ExecEnv :=
  { createSandboxOk := true, stageExecutableOk := true, stageInputOk := true,
    executeOk := true, exitStatus := .ok, exitCode := 0, killingSignal := 0,
    outputExists := true, stageResOk := true, getOutputOk := true,
    outputFile := [], getResOk := true, resFile := [], stageManagerOk := true,
    managerExecuteOk := true, managerStdoutLine := some "1.0",
    managerStderrLine := some "", parseFloat := fun _ => none,
    filterAnsiEscape := fun s => s }

/-- A submission with one executable, one empty evaluation, one testcase and
no grader. -/
def noGraderSub : Submission :=
  { files := [("a.c", "srcdig")], executables := [("a.out", "exedig")],
    evaluations := [{ outcome := none, text := none, num := 0 }],
    task := { testcases := [{ input := "in", output := "out" }], managers := [] },
    compilationOutcome := none, compilationText := none }

/-- The same submission with a grader attached to the task. -/
def graderSub : Submission :=
  { noGraderSub with
    task := { testcases := [{ input := "in", output := "out" }],
              managers := [("grader", "graderdig")] } }

/-- Compile environment whose sandbox reports an internal error. -/
def sandboxErrorCompileEnv : CompileEnv :=
  { baseCompileEnv with exitStatus := ExitStatus.sandboxError }

/-- Compile environment in which creating the sandbox raises an I/O error. -/
def noSandboxCompileEnv : CompileEnv :=
  { baseCompileEnv with createSandboxOk := false }

/-- Compile environment in which the compilation text does not decode. -/
def decodeFailCompileEnv : CompileEnv :=
  { baseCompileEnv with decode := fun _ => none }

/-- Execute environment whose sandbox reports a timeout. -/
def timeoutExecEnv : ExecEnv :=
  { baseExecEnv with exitStatus := ExitStatus.timeout }

/-- Execute environment whose sandbox reports an internal error. -/
def sandboxErrorExecEnv : ExecEnv :=
  { baseExecEnv with exitStatus := ExitStatus.sandboxError }

/-- Execute environment in which creating the sandbox raises an I/O error. -/
def noSandboxExecEnv : ExecEnv :=
  { baseExecEnv with createSandboxOk := false }

/-- Execute environment whose grader prints `2.0`, which parses to the
number 2. -/
def highOutcomeExecEnv : ExecEnv :=
  { baseExecEnv with
    managerStdoutLine := some "2.0"
    managerStderrLine := some "partial"
    parseFloat := fun _ => some 2 }

/-- A submission holding two evaluation records while its task has a single
testcase. -/
def twoEvalSub : Submission :=
  { noGraderSub with
    evaluations := [{ outcome := none, text := none, num := 0 },
                    { outcome := none, text := none, num := 1 }] }

end CMS

namespace CMS

lemma splitOnSpace_ne_nil (m : List Char) : splitOnSpace m ≠ [] := by
  induction m with
  | nil => simp [splitOnSpace]
  | cons c cs ih =>
    unfold splitOnSpace
    by_cases h : c = ' '
    · simp [h]
    · simp only [h, if_false]
      cases hs : splitOnSpace cs <;> simp

lemma all_space_of_filter_splitOnSpace_nil (m : List Char)
    (h : (splitOnSpace m).filter (fun x => x ≠ []) = []) : ∀ c ∈ m, c = ' ' := by
  induction m with
  | nil => intro c hc; cases hc
  | cons c cs ih =>
    by_cases hc : c = ' '
    · intro d hd
      rcases List.mem_cons.mp hd with h1 | h1
      · rw [h1]; exact hc
      · refine ih ?_ d h1
        unfold splitOnSpace at h
        simpa [hc] using h
    · exfalso
      unfold splitOnSpace at h
      cases hs : splitOnSpace cs with
      | nil => exact splitOnSpace_ne_nil cs hs
      | cons t ts => simp [hc, hs] at h

lemma isWhite_of_whiteToSpace_space {c : Char} (h : whiteToSpace c = ' ') :
    isWhite c := by
  unfold whiteToSpace at h
  by_cases h1 : (c = '\t' || c = '\n') = true
  · rcases Bool.or_eq_true_iff.mp h1 with h2 | h2 <;> simp_all [isWhite]
  · rw [if_neg h1] at h
    simp [isWhite, h]

lemma allWhite_of_lineTokens_nil {l : List Char} (h : lineTokens l = []) :
    ∀ c ∈ l, isWhite c := by
  intro c hc
  have hmem : whiteToSpace c ∈ l.map whiteToSpace := List.mem_map_of_mem _ hc
  exact isWhite_of_whiteToSpace_space
    (all_space_of_filter_splitOnSpace_nil _ h _ hmem)

lemma pyStripWhites_nil_of_allWhite {l : List Char} (h : ∀ c ∈ l, isWhite c) :
    pyStripWhites l = [] := by
  unfold pyStripWhites
  have h1 : l.dropWhile isWhite = [] := List.dropWhile_eq_nil_iff.mpr h
  simp [h1]

lemma white_diff_canonicalize_eq_intercalate (s : List Char) :
    white_diff_canonicalize s = List.intercalate [' '] (lineTokens s) := rfl

lemma white_diff_rest_cons (lres : List Char) (res : List (List Char)) :
    white_diff_rest (lres :: res) =
      if lres = [] then true
      else if pyStripWhites lres ≠ [] then false
      else white_diff_rest res := rfl

lemma white_diff_cons_cons (lout lres : List Char) (output res : List (List Char)) :
    white_diff (lout :: output) (lres :: res) =
      if lres = [] ∧ lout = [] then true
      else if lres = [] ∨ lout = [] then
        if pyStripWhites lout ≠ [] ∨ pyStripWhites lres ≠ [] then false
        else white_diff output res
      else if white_diff_canonicalize lout ≠ white_diff_canonicalize lres then false
      else white_diff output res := rfl

lemma white_diff_rest_blank {extra : List (List Char)}
    (h : ∀ l ∈ extra, pyStripWhites l = []) : white_diff_rest extra = true := by
  induction extra with
  | nil => rfl
  | cons l ex ih =>
    rw [white_diff_rest_cons]
    by_cases hl : l = []
    · rw [if_pos hl]
    · have hs : pyStripWhites l = [] := h l (List.mem_cons_self _ _)
      rw [if_neg hl, if_neg (by simp [hs])]
      exact ih (fun x hx => h x (List.mem_cons_of_mem _ hx))

/-- C4 (amended): white_diff is invariant under whitespace edits that do not
split or merge any token of a line (the per-line token lists are unchanged)
together with appending trailing blank lines. -/
theorem white_diff_token_invariance (out res extra : List (List Char))
    (hf : List.Forall₂ (fun a b => lineTokens a = lineTokens b) out res)
    (hb : ∀ l ∈ extra, pyStripWhites l = []) :
    white_diff out (res ++ extra) = true := by
  induction hf with
  | nil =>
    show white_diff [] ([] ++ extra) = true
    simpa [white_diff] using white_diff_rest_blank hb
  | @cons a b l1 l2 hab htl ih =>
    show white_diff (a :: l1) ((b :: l2) ++ extra) = true
    rw [List.cons_append, white_diff_cons_cons]
    by_cases h1 : b = [] ∧ a = []
    · rw [if_pos h1]
    · rw [if_neg h1]
      by_cases h2 : b = [] ∨ a = []
      · have hstrip : pyStripWhites a = [] ∧ pyStripWhites b = [] := by
          rcases h2 with h0 | h0
          · have ha : lineTokens a = [] := by rw [hab, h0]; rfl
            exact ⟨pyStripWhites_nil_of_allWhite (allWhite_of_lineTokens_nil ha),
              by rw [h0]; rfl⟩
          · have hbtok : lineTokens b = [] := by rw [← hab, h0]; rfl
            exact ⟨by rw [h0]; rfl,
              pyStripWhites_nil_of_allWhite (allWhite_of_lineTokens_nil hbtok)⟩
        rw [if_pos h2, if_neg (by simp [hstrip.1, hstrip.2])]
        exact ih
      · have hcanon : white_diff_canonicalize a = white_diff_canonicalize b := by
          rw [white_diff_canonicalize_eq_intercalate,
            white_diff_canonicalize_eq_intercalate, hab]
        rw [if_neg h2, if_neg (not_not_intro hcanon)]
        exact ih

/-- C4 (counterexample): inserting a single space inside the token `ab`
(so `s = "ab"` and `f s = "a b"`) makes white_diff reject, refuting the
claim that insertion of space characters anywhere preserves acceptance. -/
theorem white_diff_space_insertion_cex :
    white_diff [['a', 'b']] [['a', ' ', 'b']] = false := by decide

/-- C4 (witness): a whitespace edit that keeps each line's tokens and appends
a blank line is accepted. -/
theorem white_diff_token_invariance_witness :
    List.Forall₂ (fun a b => lineTokens a = lineTokens b) [['a', 'b']] [[' ', 'a', 'b', '\t']] ∧
    (∀ l ∈ [['\t', ' ']], pyStripWhites l = []) ∧
    white_diff [['a', 'b']] ([[' ', 'a', 'b', '\t']] ++ [['\t', ' ']]) = true :=
  ⟨List.Forall₂.cons (by decide) List.Forall₂.nil, by decide,
   white_diff_token_invariance [['a', 'b']] [[' ', 'a', 'b', '\t']] [['\t', ' ']]
     (List.Forall₂.cons (by decide) List.Forall₂.nil) (by decide)⟩

lemma white_diff_nil_left (res : List (List Char)) :
    white_diff [] res = white_diff_rest res := rfl

lemma white_diff_nil_right (output : List (List Char)) :
    white_diff output [] = white_diff_rest output := by
  cases output <;> rfl

lemma white_diffF_succ (n : Nat) (output res : List (List Char)) :
    white_diffF (n + 1) output res =
      if res.headD [] = [] ∧ output.headD [] = [] then some true
      else if res.headD [] = [] ∨ output.headD [] = [] then
        if pyStripWhites (output.headD []) ≠ [] ∨ pyStripWhites (res.headD []) ≠ [] then
          some false
        else white_diffF n output.tail res.tail
      else if white_diff_canonicalize (output.headD []) ≠
          white_diff_canonicalize (res.headD []) then some false
      else white_diffF n output.tail res.tail := rfl

lemma white_diffF_spec :
    ∀ (n : Nat) (output res : List (List Char)),
      output.length + res.length < n →
      white_diffF n output res = some (white_diff output res) := by
  intro n
  induction n with
  | zero => intro o r h; exact absurd h (Nat.not_lt_zero _)
  | succ n ih =>
    intro output res h
    cases output with
    | nil =>
      cases res with
      | nil => rfl
      | cons lres res =>
        rw [white_diffF_succ]
        simp only [List.headD_cons, List.headD_nil, List.tail_cons, List.tail_nil]
        rw [white_diff_nil_left, white_diff_rest_cons]
        by_cases hl : lres = []
        · rw [if_pos ⟨hl, trivial⟩, if_pos hl]
        · rw [if_neg (fun hc => hl hc.1), if_pos (Or.inr trivial)]
          by_cases hs : pyStripWhites lres = []
          · have hrec := ih [] res (by simp at h ⊢; omega)
            rw [white_diff_nil_left] at hrec
            rw [if_neg (fun hc => hc.elim (fun hx => hx rfl) (fun hx => hx hs)),
              if_neg hl, if_neg (not_not_intro hs), hrec]
          · rw [if_pos (Or.inr hs), if_neg hl, if_pos hs]
    | cons lout output =>
      cases res with
      | nil =>
        rw [white_diffF_succ]
        simp only [List.headD_cons, List.headD_nil, List.tail_cons, List.tail_nil]
        rw [white_diff_nil_right, white_diff_rest_cons]
        by_cases hl : lout = []
        · rw [if_pos ⟨trivial, hl⟩, if_pos hl]
        · rw [if_neg (fun hc => hl hc.2), if_pos (Or.inl trivial)]
          by_cases hs : pyStripWhites lout = []
          · have hrec := ih output [] (by simp at h ⊢; omega)
            rw [white_diff_nil_right] at hrec
            rw [if_neg (fun hc => hc.elim (fun hx => hx hs) (fun hx => hx rfl)),
              if_neg hl, if_neg (not_not_intro hs), hrec]
          · rw [if_pos (Or.inl hs), if_neg hl, if_pos hs]
      | cons lres res =>
        rw [white_diffF_succ]
        simp only [List.headD_cons, List.tail_cons]
        rw [white_diff_cons_cons]
        have hrec : white_diffF n output res = some (white_diff output res) :=
          ih output res (by simp at h ⊢; omega)
        by_cases h1 : lres = [] ∧ lout = []
        · rw [if_pos h1, if_pos h1]
        · rw [if_neg h1, if_neg h1]
          by_cases h2 : lres = [] ∨ lout = []
          · rw [if_pos h2, if_pos h2]
            by_cases h3 : pyStripWhites lout ≠ [] ∨ pyStripWhites lres ≠ []
            · rw [if_pos h3, if_pos h3]
            · rw [if_neg h3, if_neg h3, hrec]
          · rw [if_neg h2, if_neg h2]
            by_cases h4 : white_diff_canonicalize lout ≠ white_diff_canonicalize lres
            · rw [if_pos h4, if_pos h4]
            · rw [if_neg h4, if_neg h4, hrec]

/-- C10: the read loop of white_diff terminates on every pair of finite
streams: with fuel one more than the total number of remaining lines, the
fuel-indexed loop returns, and returns the value computed by `white_diff`. -/
theorem white_diff_loop_terminates (output res : List (List Char)) :
    white_diffF (output.length + res.length + 1) output res =
      some (white_diff output res) :=
  white_diffF_spec _ output res (by omega)

lemma finish_single_execution_false (sub : Submission) (tn : Nat) (o : ℚ) (t : String) :
    finish_single_execution sub tn false o t = (.ret false, sub) := rfl

lemma finish_single_execution_sets (sub : Submission) (tn : Nat) (o : ℚ) (t : String)
    (h : (finish_single_execution sub tn true o t).1 = .ret true) :
    ∃ ev, (finish_single_execution sub tn true o t).2.evaluations[tn]? = some ev ∧
      ev.outcome = some o ∧ ev.text = some t := by
  unfold finish_single_execution at h ⊢
  rw [if_neg (by simp)] at h ⊢
  cases hev : sub.evaluations[tn]? with
  | none => rw [hev] at h; simp at h
  | some ev =>
    have hlt : tn < sub.evaluations.length := (List.getElem?_eq_some_iff.mp hev).1
    exact ⟨{ outcome := some o, text := some t, num := ev.num },
      by simpa using List.getElem?_set_self hlt, rfl, rfl⟩

lemma finish_single_execution_evals_length (sub : Submission) (tn : Nat)
    (s : Bool) (o : ℚ) (t : String) :
    (finish_single_execution sub tn s o t).2.evaluations.length =
      sub.evaluations.length := by
  unfold finish_single_execution
  repeat' split
  all_goals simp

lemma finish_single_execution_entry (sub : Submission) (tn : Nat)
    (s : Bool) (o : ℚ) (t : String) (i : Nat) :
    (finish_single_execution sub tn s o t).2.evaluations[i]? = sub.evaluations[i]? ∨
    ∃ ev, (finish_single_execution sub tn s o t).2.evaluations[i]? = some ev ∧
      ev.outcome.isSome ∧ ev.text.isSome := by
  unfold finish_single_execution
  repeat' split
  · left; rfl
  · left; rfl
  · rename_i ev hev
    by_cases hi : i = tn
    · subst hi
      have hlt : i < sub.evaluations.length := (List.getElem?_eq_some_iff.mp hev).1
      exact Or.inr ⟨{ outcome := some o, text := some t, num := ev.num },
        by simpa using List.getElem?_set_self hlt, rfl, rfl⟩
    · left
      simpa using List.getElem?_set_ne (l := sub.evaluations) (fun hc => hi hc.symm)

/-- Every exit of the scoring phase either leaves the submission untouched
and does not report success, or is a successful `finish_single_execution` on
the unchanged submission. -/
lemma execute_single_scoring_shape (env : ExecEnv) (sub : Submission) (tn : Nat) :
    ((execute_single_scoring env sub tn).1 ≠ PyResult.ret true ∧
      (execute_single_scoring env sub tn).2.1 = sub) ∨
    ∃ o t,
      (execute_single_scoring env sub tn).1 = (finish_single_execution sub tn true o t).1 ∧
      (execute_single_scoring env sub tn).2.1 = (finish_single_execution sub tn true o t).2 := by
  rcases hE : execute_single_scoring env sub tn with ⟨res, sub2, cnt⟩
  unfold execute_single_scoring at hE
  repeat' split at hE
  all_goals (
    injection hE with e1 erest
    injection erest with e2 e3
    subst e1
    subst e2)
  all_goals first
    | exact Or.inr ⟨_, _, rfl, rfl⟩
    | exact Or.inl ⟨by simp [finish_single_execution_false],
        by simp [finish_single_execution_false]⟩

/-- Shape of the report phase: as for the scoring phase. -/
lemma execute_single_report_shape (env : ExecEnv) (sub : Submission) (tn : Nat) :
    ((execute_single_report env sub tn).1 ≠ PyResult.ret true ∧
      (execute_single_report env sub tn).2.1 = sub) ∨
    ∃ o t,
      (execute_single_report env sub tn).1 = (finish_single_execution sub tn true o t).1 ∧
      (execute_single_report env sub tn).2.1 = (finish_single_execution sub tn true o t).2 := by
  rcases hE : execute_single_report env sub tn with ⟨res, sub2, cnt⟩
  unfold execute_single_report at hE
  repeat' split at hE
  all_goals try (
    injection hE with e1 erest
    injection erest with e2 e3
    subst e1
    subst e2)
  all_goals first
    | exact Or.inr ⟨_, _, rfl, rfl⟩
    | (rcases execute_single_scoring_shape env sub tn with ⟨h1, h2⟩ | ⟨o, t, h1, h2⟩ <;>
        rw [hE] at h1 h2 <;>
        first
          | exact Or.inl ⟨h1, h2⟩
          | exact Or.inr ⟨o, t, h1, h2⟩)
    | exact Or.inl ⟨by simp [finish_single_execution_false],
        by simp [finish_single_execution_false]⟩

/-- Every exit of `execute_single` either leaves the submission untouched and
does not report success, or is a successful `finish_single_execution` on the
unchanged submission. -/
lemma execute_single_shape (env : ExecEnv) (sub : Submission) (tn : Nat) (exe : String) :
    ((execute_single env sub tn exe).1 ≠ PyResult.ret true ∧
      (execute_single env sub tn exe).2.1 = sub) ∨
    ∃ o t, (execute_single env sub tn exe).1 = (finish_single_execution sub tn true o t).1 ∧
      (execute_single env sub tn exe).2.1 = (finish_single_execution sub tn true o t).2 := by
  rcases hE : execute_single env sub tn exe with ⟨res, sub2, cnt⟩
  unfold execute_single at hE
  repeat' split at hE
  all_goals try (
    injection hE with e1 erest
    injection erest with e2 e3
    subst e1
    subst e2)
  all_goals first
    | exact Or.inr ⟨_, _, rfl, rfl⟩
    | (rcases execute_single_report_shape env sub tn with ⟨h1, h2⟩ | ⟨o, t, h1, h2⟩ <;>
        rw [hE] at h1 h2 <;>
        first
          | exact Or.inl ⟨h1, h2⟩
          | exact Or.inr ⟨o, t, h1, h2⟩)
    | exact Or.inl ⟨by simp [finish_single_execution_false],
        by simp [finish_single_execution_false]⟩

lemma execute_single_evals_length (env : ExecEnv) (sub : Submission) (tn : Nat) (exe : String) :
    (execute_single env sub tn exe).2.1.evaluations.length = sub.evaluations.length := by
  rcases execute_single_shape env sub tn exe with ⟨_, h⟩ | ⟨o, t, _, h⟩
  · rw [h]
  · rw [h, finish_single_execution_evals_length]

lemma execute_single_entry (env : ExecEnv) (sub : Submission) (tn : Nat) (exe : String)
    (i : Nat) :
    (execute_single env sub tn exe).2.1.evaluations[i]? = sub.evaluations[i]? ∨
    ∃ ev, (execute_single env sub tn exe).2.1.evaluations[i]? = some ev ∧
      ev.outcome.isSome ∧ ev.text.isSome := by
  rcases execute_single_shape env sub tn exe with ⟨_, h⟩ | ⟨o, t, _, h⟩
  · rw [h]; left; rfl
  · rw [h]; exact finish_single_execution_entry sub tn true o t i

lemma execute_single_sets (env : ExecEnv) (sub : Submission) (tn : Nat) (exe : String)
    (h : (execute_single env sub tn exe).1 = PyResult.ret true) :
    ∃ ev, (execute_single env sub tn exe).2.1.evaluations[tn]? = some ev ∧
      ev.outcome.isSome ∧ ev.text.isSome := by
  rcases execute_single_shape env sub tn exe with ⟨hne, _⟩ | ⟨o, t, h1, h2⟩
  · exact absurd h hne
  · rw [h2]
    rcases finish_single_execution_sets sub tn o t (h1 ▸ h) with ⟨ev, hev, ho, ht⟩
    exact ⟨ev, hev, by simp [ho], by simp [ht]⟩

lemma finish_compilation_ok (env : CompileEnv) (sub : Submission) (t : String)
    (hdec : ∀ s, (env.decode s).isSome) :
    (finish_compilation env sub true true t).1 = PyResult.ret true ∧
    (finish_compilation env sub true true t).2.compilationOutcome = some "ok" := by
  rcases Option.isSome_iff_exists.mp (hdec t) with ⟨d, hd⟩
  unfold finish_compilation
  rw [if_neg (by simp), if_pos rfl, hd]
  exact ⟨rfl, rfl⟩

/-- C1: when the sandbox reports OK with exit code 0 and the run's external
operations succeed (the executable is extracted to the store, all reads and
the UTF-8 decode succeed), `compile` stages exactly one new Executable
record in the session, sets the compilation outcome to "ok", and returns
`True`. -/
theorem compile_ok_zero_success (env : CompileEnv) (sub : Submission)
    (session : List Staged) (lang so se dig : String)
    (hvalid : env.verifyValid = true)
    (hlang : env.language = some lang)
    (hfiles : sub.files.length = 1)
    (hsb : env.createSandboxOk = true)
    (hstage : env.stageSourceOk = true)
    (hexec : env.executeOk = true)
    (hso : env.stdoutRead = some so)
    (hse : env.stderrRead = some se)
    (hstatus : env.exitStatus = ExitStatus.ok)
    (hcode : env.exitCode = 0)
    (hdig : env.storeExecutable = some dig)
    (hdec : ∀ s, (env.decode s).isSome) :
    (compile env sub session).1 = PyResult.ret true ∧
    (compile env sub session).2.1.compilationOutcome = some "ok" ∧
    (compile env sub session).2.2 =
      session ++ [Staged.executable dig
        ((sub.files.headD ("", "")).1.replace ("." ++ lang) "")] := by
  unfold compile
  rw [hlang]
  simp only [hvalid, hsb, hstage, hexec, hso, hse, hstatus, hcode, hdig, hfiles]
  simp only [ne_eq, not_true_eq_false, if_false, ite_false, ite_true, reduceIte]
  exact ⟨(finish_compilation_ok env sub _ hdec).1,
    (finish_compilation_ok env sub _ hdec).2, rfl⟩

/-- C1 (witness): a concrete successful compile run staging one Executable. -/
theorem compile_ok_zero_success_witness :
    (compile baseCompileEnv compileSub []).1 = PyResult.ret true ∧
    (compile baseCompileEnv compileSub []).2.1.compilationOutcome = some "ok" ∧
    (compile baseCompileEnv compileSub []).2.2 =
      [] ++ [Staged.executable "exedig"
        ((compileSub.files.headD ("", "")).1.replace ("." ++ "c") "")] :=
  compile_ok_zero_success baseCompileEnv compileSub [] "c" "out" "err" "exedig"
    rfl rfl rfl rfl rfl rfl rfl rfl rfl rfl rfl (fun _ => rfl)

/-- C7: when the compilation text does not decode as UTF-8, `compile` does
not replace the text and return `True`; the decode handler calls
`submission.compilation_text` as a function, raising `TypeError` after the
outcome has already been set to "ok" and with the text left unset.  This
contradicts the claim (and the source's evident intent of assigning a fixed
error message), so the claim is a code bug, evaluated here on a concrete
OK/0 run whose text does not decode. -/
theorem compile_decode_failure_typeerror :
    (compile decodeFailCompileEnv compileSub []).1 = PyResult.typeError ∧
    (compile decodeFailCompileEnv compileSub []).2.1.compilationOutcome = some "ok" ∧
    (compile decodeFailCompileEnv compileSub []).2.1.compilationText = none :=
  ⟨rfl, rfl, rfl⟩

/-- C2 (counterexample): an I/O failure while creating the sandbox makes
`compile` terminate with a raised `JobException`, not a `False` return, so
the claim that every environmental failure yields a `False` return from the
enclosing call is refuted. -/
theorem sandbox_create_failure_not_false_cex :
    (compile noSandboxCompileEnv compileSub []).1 = PyResult.jobException ∧
    PyResult.jobException ≠ PyResult.ret false :=
  ⟨rfl, by decide⟩

/-- C9: the result of `execute_single` does not depend on the candidate's
exit code: two runs whose environments differ only in the exit code produce
identical results (in particular the same evaluation outcome and text),
whatever the exit status. -/
theorem execute_single_exit_code_independent (env : ExecEnv) (sub : Submission)
    (tn : Nat) (exe : String) (c1 c2 : Int) :
    execute_single { env with exitCode := c1 } sub tn exe =
      execute_single { env with exitCode := c2 } sub tn exe := rfl

lemma execute_single_scoring_count (env : ExecEnv) (sub : Submission) (tn : Nat) :
    (execute_single_scoring env sub tn).2.2 ≤ 2 ∧
    (sub.task.managers = [] → (execute_single_scoring env sub tn).2.2 ≤ 1) := by
  rcases hE : execute_single_scoring env sub tn with ⟨res, sub2, cnt⟩
  unfold execute_single_scoring at hE
  repeat' split at hE
  all_goals (
    injection hE with e1 erest
    injection erest with e2 e3
    subst e3)
  all_goals refine ⟨by simp, fun hm => ?_⟩
  all_goals simp_all

lemma execute_single_report_count (env : ExecEnv) (sub : Submission) (tn : Nat) :
    (execute_single_report env sub tn).2.2 ≤ 2 ∧
    (sub.task.managers = [] → (execute_single_report env sub tn).2.2 ≤ 1) := by
  rcases hE : execute_single_report env sub tn with ⟨res, sub2, cnt⟩
  unfold execute_single_report at hE
  repeat' split at hE
  all_goals try (
    injection hE with e1 erest
    injection erest with e2 e3
    subst e3)
  all_goals first
    | (have hc := execute_single_scoring_count env sub tn
       rw [hE] at hc
       exact hc)
    | exact ⟨by simp, fun hm => by simp⟩

/-- C6 (amended): during one `execute_single` run the sandbox receives at
most two `execute` calls — the candidate's, plus the grader's in the same
sandbox when the task has a grader — and at most one when the task has no
grader. -/
theorem sandbox_execute_at_most_two (env : ExecEnv) (sub : Submission)
    (tn : Nat) (exe : String) :
    (execute_single env sub tn exe).2.2 ≤ 2 ∧
    (sub.task.managers = [] → (execute_single env sub tn exe).2.2 ≤ 1) := by
  rcases hE : execute_single env sub tn exe with ⟨res, sub2, cnt⟩
  unfold execute_single at hE
  repeat' split at hE
  all_goals try (
    injection hE with e1 erest
    injection erest with e2 e3
    subst e3)
  all_goals first
    | (have hc := execute_single_report_count env sub tn
       rw [hE] at hc
       exact hc)
    | exact ⟨by simp, fun hm => by simp⟩

/-- C6 (witness): with no grader, a concrete run issues at most one execute
call. -/
theorem sandbox_execute_at_most_two_witness :
    (execute_single baseExecEnv noGraderSub 0 "a.out").2.2 ≤ 2 ∧
    (execute_single baseExecEnv noGraderSub 0 "a.out").2.2 ≤ 1 :=
  ⟨(sandbox_execute_at_most_two baseExecEnv noGraderSub 0 "a.out").1,
   (sandbox_execute_at_most_two baseExecEnv noGraderSub 0 "a.out").2 rfl⟩

/-- C6 (counterexample): with a grader attached, a single `execute_single`
run issues two `execute` calls in the same sandbox (candidate, then grader),
refuting the claim that a sandbox undergoes at most one execute call. -/
theorem grader_runs_in_same_sandbox_cex :
    (execute_single baseExecEnv graderSub 0 "a.out").2.2 = 2 ∧ ¬ (2 ≤ 1) :=
  ⟨rfl, by decide⟩

/-- A run that reaches the grader branch and whose grader output cannot be
interpreted (stdout or stderr does not decode, or the first stdout line does
not parse as a float) returns `False` with the submission unchanged. -/
lemma exec_single_grader_parse_false (env : ExecEnv) (sub : Submission)
    (tn : Nat) (exe : String)
    (h1 : env.createSandboxOk = true)
    (h2 : (sub.executables.find? (fun p => p.1 == exe)).isSome)
    (h3 : env.stageExecutableOk = true)
    (h4 : (sub.task.testcases[tn]?).isSome)
    (h5 : env.stageInputOk = true)
    (h6 : env.executeOk = true)
    (h7 : env.exitStatus = ExitStatus.ok)
    (h8 : env.outputExists = true)
    (h9 : env.stageResOk = true)
    (h10 : sub.task.managers ≠ [])
    (h11 : env.stageManagerOk = true)
    (h12 : env.managerExecuteOk = true)
    (h13 : env.managerStdoutLine = none ∨ env.managerStderrLine = none ∨
      ∀ s, env.managerStdoutLine = some s → env.parseFloat s.trim = none) :
    (execute_single env sub tn exe).1 = PyResult.ret false ∧
    (execute_single env sub tn exe).2.1 = sub := by
  obtain ⟨fx, hf⟩ := Option.isSome_iff_exists.mp h2
  obtain ⟨tc, ht⟩ := Option.isSome_iff_exists.mp h4
  obtain ⟨m, ms, hm⟩ := List.exists_cons_of_ne_nil h10
  rcases h13 with hso | hse | hp
  · simp [execute_single, execute_single_report, execute_single_scoring,
      finish_single_execution_false, h1, h3, h5, h6, h7, h8, h9, h11, h12,
      hf, ht, hm, hso]
  · cases hso : env.managerStdoutLine with
    | none =>
      simp [execute_single, execute_single_report, execute_single_scoring,
        finish_single_execution_false, h1, h3, h5, h6, h7, h8, h9, h11, h12,
        hf, ht, hm, hso]
    | some s =>
      simp [execute_single, execute_single_report, execute_single_scoring,
        finish_single_execution_false, h1, h3, h5, h6, h7, h8, h9, h11, h12,
        hf, ht, hm, hso, hse]
  · cases hso : env.managerStdoutLine with
    | none =>
      simp [execute_single, execute_single_report, execute_single_scoring,
        finish_single_execution_false, h1, h3, h5, h6, h7, h8, h9, h11, h12,
        hf, ht, hm, hso]
    | some s =>
      cases hse : env.managerStderrLine with
      | none =>
        simp [execute_single, execute_single_report, execute_single_scoring,
          finish_single_execution_false, h1, h3, h5, h6, h7, h8, h9, h11, h12,
          hf, ht, hm, hso, hse]
      | some t =>
        simp [execute_single, execute_single_report, execute_single_scoring,
          finish_single_execution_false, h1, h3, h5, h6, h7, h8, h9, h11, h12,
          hf, ht, hm, hso, hse, hp s hso]

/-- C8: in a grader-branch run, if the grader's stdout or stderr does not
decode as UTF-8 or the first stdout line does not parse as a float,
`execute_single` returns `False` and the submission — in particular
`evaluations[tn]` — is left unchanged. -/
theorem grader_parse_failure_returns_false (env : ExecEnv) (sub : Submission)
    (tn : Nat) (exe : String)
    (h1 : env.createSandboxOk = true)
    (h2 : (sub.executables.find? (fun p => p.1 == exe)).isSome)
    (h3 : env.stageExecutableOk = true)
    (h4 : (sub.task.testcases[tn]?).isSome)
    (h5 : env.stageInputOk = true)
    (h6 : env.executeOk = true)
    (h7 : env.exitStatus = ExitStatus.ok)
    (h8 : env.outputExists = true)
    (h9 : env.stageResOk = true)
    (h10 : sub.task.managers ≠ [])
    (h11 : env.stageManagerOk = true)
    (h12 : env.managerExecuteOk = true)
    (h13 : env.managerStdoutLine = none ∨ env.managerStderrLine = none ∨
      ∀ s, env.managerStdoutLine = some s → env.parseFloat s.trim = none) :
    (execute_single env sub tn exe).1 = PyResult.ret false ∧
    (execute_single env sub tn exe).2.1 = sub :=
  exec_single_grader_parse_false env sub tn exe
    h1 h2 h3 h4 h5 h6 h7 h8 h9 h10 h11 h12 h13

/-- C8 (witness): a concrete grader run whose stdout line does not parse. -/
theorem grader_parse_failure_returns_false_witness :
    (execute_single baseExecEnv graderSub 0 "a.out").1 = PyResult.ret false ∧
    (execute_single baseExecEnv graderSub 0 "a.out").2.1 = graderSub :=
  grader_parse_failure_returns_false baseExecEnv graderSub 0 "a.out"
    rfl rfl rfl rfl rfl rfl rfl rfl rfl (by decide) rfl rfl
    (Or.inr (Or.inr (fun _ _ => rfl)))

/-- C2 (amended): a sandbox-internal-error report or unparseable grader
output makes the enclosing `compile` or `execute_single` return `False`,
while an I/O failure inside a safe-sandbox helper (here: sandbox creation)
instead aborts the call by raising `JobException`. -/
theorem environmental_failure_paths :
    (∀ (env : CompileEnv) (sub : Submission) (sess : List Staged) (lang so se : String),
      env.verifyValid = true → env.language = some lang → sub.files.length = 1 →
      env.createSandboxOk = true → env.stageSourceOk = true → env.executeOk = true →
      env.stdoutRead = some so → env.stderrRead = some se →
      env.exitStatus = ExitStatus.sandboxError →
      (compile env sub sess).1 = PyResult.ret false) ∧
    (∀ (env : CompileEnv) (sub : Submission) (sess : List Staged) (lang : String),
      env.verifyValid = true → env.language = some lang → sub.files.length = 1 →
      env.createSandboxOk = false →
      (compile env sub sess).1 = PyResult.jobException) ∧
    (∀ (env : ExecEnv) (sub : Submission) (tn : Nat) (exe : String),
      env.createSandboxOk = true →
      (sub.executables.find? (fun p => p.1 == exe)).isSome →
      env.stageExecutableOk = true → (sub.task.testcases[tn]?).isSome →
      env.stageInputOk = true → env.executeOk = true →
      env.exitStatus = ExitStatus.sandboxError →
      (execute_single env sub tn exe).1 = PyResult.ret false) ∧
    (∀ (env : ExecEnv) (sub : Submission) (tn : Nat) (exe : String),
      env.createSandboxOk = true →
      (sub.executables.find? (fun p => p.1 == exe)).isSome →
      env.stageExecutableOk = true → (sub.task.testcases[tn]?).isSome →
      env.stageInputOk = true → env.executeOk = true →
      env.exitStatus = ExitStatus.ok → env.outputExists = true →
      env.stageResOk = true → sub.task.managers ≠ [] →
      env.stageManagerOk = true → env.managerExecuteOk = true →
      (env.managerStdoutLine = none ∨ env.managerStderrLine = none ∨
        ∀ s, env.managerStdoutLine = some s → env.parseFloat s.trim = none) →
      (execute_single env sub tn exe).1 = PyResult.ret false) ∧
    (∀ (env : ExecEnv) (sub : Submission) (tn : Nat) (exe : String),
      env.createSandboxOk = false →
      (execute_single env sub tn exe).1 = PyResult.jobException) := by
  refine ⟨?_, ?_, ?_, ?_, ?_⟩
  · intro env sub sess lang so se hv hl hf1 hsb hst hex hso hse hstat
    simp [compile, finish_compilation, hl, hv, hf1, hsb, hst, hex, hso, hse, hstat]
  · intro env sub sess lang hv hl hf1 hcs
    simp [compile, hl, hv, hf1, hcs]
  · intro env sub tn exe h1 h2 h3 h4 h5 h6 hstat
    obtain ⟨fx, hf⟩ := Option.isSome_iff_exists.mp h2
    obtain ⟨tc, ht⟩ := Option.isSome_iff_exists.mp h4
    simp [execute_single, execute_single_report, finish_single_execution_false,
      h1, h3, h5, h6, hf, ht, hstat]
  · intro env sub tn exe h1 h2 h3 h4 h5 h6 h7 h8 h9 h10 h11 h12 h13
    exact (exec_single_grader_parse_false env sub tn exe
      h1 h2 h3 h4 h5 h6 h7 h8 h9 h10 h11 h12 h13).1
  · intro env sub tn exe hcs
    simp [execute_single, hcs]

/-- C2 (witness): the amended behaviour at concrete runs: sandbox-error
compile and execute runs and a parse-failing grader run return `False`;
sandbox-creation failures raise `JobException`. -/
theorem environmental_failure_paths_witness :
    (compile sandboxErrorCompileEnv compileSub []).1 = PyResult.ret false ∧
    (compile noSandboxCompileEnv compileSub []).1 = PyResult.jobException ∧
    (execute_single sandboxErrorExecEnv noGraderSub 0 "a.out").1 = PyResult.ret false ∧
    (execute_single baseExecEnv graderSub 0 "a.out").1 = PyResult.ret false ∧
    (execute_single noSandboxExecEnv noGraderSub 0 "a.out").1 = PyResult.jobException :=
  ⟨environmental_failure_paths.1 sandboxErrorCompileEnv compileSub [] "c" "out" "err"
      rfl rfl rfl rfl rfl rfl rfl rfl rfl,
   environmental_failure_paths.2.1 noSandboxCompileEnv compileSub [] "c"
      rfl rfl rfl rfl,
   environmental_failure_paths.2.2.1 sandboxErrorExecEnv noGraderSub 0 "a.out"
      rfl rfl rfl rfl rfl rfl rfl,
   environmental_failure_paths.2.2.2.1 baseExecEnv graderSub 0 "a.out"
      rfl rfl rfl rfl rfl rfl rfl rfl rfl (by decide) rfl rfl
      (Or.inr (Or.inr (fun _ _ => rfl))),
   environmental_failure_paths.2.2.2.2 noSandboxExecEnv noGraderSub 0 "a.out" rfl⟩

/-- Setup phase of `execute_single`: either an exception before the report
phase, or the run equals the report phase. -/
lemma execute_single_setup_cases (env : ExecEnv) (sub : Submission) (tn : Nat)
    (exe : String) :
    (execute_single env sub tn exe).1 ∈
      [PyResult.jobException, PyResult.keyError, PyResult.indexError] ∨
    execute_single env sub tn exe = execute_single_report env sub tn := by
  rcases hE : execute_single env sub tn exe with ⟨res, sub2, cnt⟩
  unfold execute_single at hE
  repeat' split at hE
  all_goals first
    | exact Or.inr hE.symm
    | (injection hE with e1 erest
       injection erest with e2 e3
       subst e1
       exact Or.inl (by simp))

/-- Report phase outcomes: no success, or a successful finish with outcome 0,
or the scoring phase. -/
lemma execute_single_report_cases (env : ExecEnv) (sub : Submission) (tn : Nat) :
    (execute_single_report env sub tn).1 ≠ PyResult.ret true ∨
    (∃ t, execute_single_report env sub tn =
      ((finish_single_execution sub tn true 0 t).1,
       (finish_single_execution sub tn true 0 t).2, 1)) ∨
    execute_single_report env sub tn = execute_single_scoring env sub tn := by
  rcases hE : execute_single_report env sub tn with ⟨res, sub2, cnt⟩
  unfold execute_single_report at hE
  repeat' split at hE
  all_goals first
    | exact Or.inr (Or.inl ⟨_, hE.symm⟩)
    | exact Or.inr (Or.inr hE.symm)
    | (injection hE with e1 erest
       injection erest with e2 e3
       subst e1
       exact Or.inl (by simp [finish_single_execution_false]))

/-- The scoring phase with no grader, reduced to its comparator branch. -/
lemma execute_single_scoring_nil (env : ExecEnv) (sub : Submission) (tn : Nat)
    (hm : sub.task.managers = []) :
    execute_single_scoring env sub tn =
      (if env.stageResOk = false then (.jobException, sub, 1)
       else if env.getOutputOk = false then (.jobException, sub, 1)
       else if env.getResOk = false then (.jobException, sub, 1)
       else if white_diff env.outputFile env.resFile then
         ((finish_single_execution sub tn true 1 "Output file is correct").1,
          (finish_single_execution sub tn true 1 "Output file is correct").2, 1)
       else
         ((finish_single_execution sub tn true 0 "Output file isn't correct").1,
          (finish_single_execution sub tn true 0 "Output file isn't correct").2, 1)) := by
  unfold execute_single_scoring
  rw [hm]

/-- Scoring phase outcomes in the comparator branch (no grader): no success,
or a successful finish whose outcome is 0 or 1. -/
lemma execute_single_scoring_cases (env : ExecEnv) (sub : Submission) (tn : Nat)
    (hm : sub.task.managers = []) :
    (execute_single_scoring env sub tn).1 ≠ PyResult.ret true ∨
    ∃ o t, (o = 0 ∨ o = 1) ∧ execute_single_scoring env sub tn =
      ((finish_single_execution sub tn true o t).1,
       (finish_single_execution sub tn true o t).2, 1) := by
  rcases hE : execute_single_scoring env sub tn with ⟨res, sub2, cnt⟩
  rw [execute_single_scoring_nil env sub tn hm] at hE
  repeat' split at hE
  all_goals first
    | exact Or.inr ⟨1, _, Or.inr rfl, hE.symm⟩
    | exact Or.inr ⟨0, _, Or.inl rfl, hE.symm⟩
    | (injection hE with e1 erest
       injection erest with e2 e3
       subst e1
       exact Or.inl (by simp [finish_single_execution_false]))

/-- C3 (amended): every evaluation written by a successful `execute_single`
run of a task with no grader (the whitespace-comparator branch and the
pre-scoring verdict branches) has an outcome in the closed interval [0,1]. -/
theorem outcome_range_no_grader (env : ExecEnv) (sub : Submission) (tn : Nat)
    (exe : String) (hm : sub.task.managers = [])
    (ht : (execute_single env sub tn exe).1 = PyResult.ret true) :
    ∃ ev o, (execute_single env sub tn exe).2.1.evaluations[tn]? = some ev ∧
      ev.outcome = some o ∧ 0 ≤ o ∧ o ≤ 1 := by
  rcases execute_single_setup_cases env sub tn exe with hmem | hdel
  · rw [ht] at hmem; simp at hmem
  · rw [hdel] at ht ⊢
    rcases execute_single_report_cases env sub tn with hne | ⟨t, hrep⟩ | hsc
    · exact absurd ht hne
    · rw [hrep] at ht ⊢
      rcases finish_single_execution_sets sub tn 0 t ht with ⟨ev, hev, ho, htx⟩
      exact ⟨ev, 0, hev, ho, le_refl 0, by norm_num⟩
    · rw [hsc] at ht ⊢
      rcases execute_single_scoring_cases env sub tn hm with hne | ⟨o, t, ho01, hsc2⟩
      · exact absurd ht hne
      · rw [hsc2] at ht ⊢
        rcases finish_single_execution_sets sub tn o t ht with ⟨ev, hev, ho2, htx⟩
        refine ⟨ev, o, hev, ho2, ?_, ?_⟩ <;> rcases ho01 with rfl | rfl <;> norm_num

/-- C3 (witness): a concrete no-grader run writing an in-range outcome. -/
theorem outcome_range_no_grader_witness :
    noGraderSub.task.managers = [] ∧
    (execute_single timeoutExecEnv noGraderSub 0 "a.out").1 = PyResult.ret true ∧
    ∃ ev o,
      (execute_single timeoutExecEnv noGraderSub 0 "a.out").2.1.evaluations[0]? = some ev ∧
      ev.outcome = some o ∧ 0 ≤ o ∧ o ≤ 1 :=
  ⟨rfl, rfl, outcome_range_no_grader timeoutExecEnv noGraderSub 0 "a.out" rfl rfl⟩

/-- C3 (counterexample): in the grader branch the parsed grader value is
stored without any range check: a grader printing `2.0` makes the core write
outcome 2, which lies outside [0,1], refuting the claim for the
external-grader branch. -/
theorem grader_outcome_out_of_range_cex :
    (execute_single highOutcomeExecEnv graderSub 0 "a.out").1 = PyResult.ret true ∧
    (execute_single highOutcomeExecEnv graderSub 0 "a.out").2.1.evaluations[0]? =
      some { outcome := some 2, text := some "partial", num := 0 } ∧
    ¬ ((2 : ℚ) ≤ 1) :=
  ⟨rfl, rfl, by decide⟩

lemma add_empty_evaluations_spec (l : List Nat) :
    ∀ (sub : Submission) (sess : List Staged),
    (add_empty_evaluations sub sess l).1 =
      { sub with
        evaluations :=
          sub.evaluations ++ l.map (fun tn => { outcome := none, text := none, num := tn }) } ∧
    (add_empty_evaluations sub sess l).2 = sess ++ l.map Staged.evaluation := by
  induction l with
  | nil =>
    intro sub sess
    constructor <;> simp [add_empty_evaluations]
  | cons tn rest ih =>
    intro sub sess
    unfold add_empty_evaluations
    refine ⟨?_, ?_⟩
    · rw [(ih _ _).1]
      simp
    · rw [(ih _ _).2]
      simp

lemma execute_loop_length (env : Nat → ExecEnv) (exe : String) :
    ∀ (idxs : List Nat) (sub : Submission),
    (execute_loop env exe idxs sub).2.evaluations.length = sub.evaluations.length := by
  intro idxs
  induction idxs with
  | nil => intro sub; rfl
  | cons tn rest ih =>
    intro sub
    unfold execute_loop
    rcases hE : execute_single (env tn) sub tn exe with ⟨res, sub2, cnt⟩
    have hlen : sub2.evaluations.length = sub.evaluations.length := by
      have h := execute_single_evals_length (env tn) sub tn exe
      rw [hE] at h
      exact h
    cases res with
    | ret b => cases b <;> simp [ih sub2, hlen]
    | jobException => simpa using hlen
    | typeError => simpa using hlen
    | indexError => simpa using hlen
    | keyError => simpa using hlen

lemma execute_loop_preserves_set (env : Nat → ExecEnv) (exe : String) :
    ∀ (idxs : List Nat) (sub : Submission) (i : Nat),
    (∀ ev, sub.evaluations[i]? = some ev → ev.outcome.isSome ∧ ev.text.isSome) →
    ∀ ev, (execute_loop env exe idxs sub).2.evaluations[i]? = some ev →
      ev.outcome.isSome ∧ ev.text.isSome := by
  intro idxs
  induction idxs with
  | nil => intro sub i h ev hev; exact h ev hev
  | cons tn rest ih =>
    intro sub i h ev hev
    have hstep : ∀ ev2, (execute_single (env tn) sub tn exe).2.1.evaluations[i]? = some ev2 →
        ev2.outcome.isSome ∧ ev2.text.isSome := by
      intro ev2 hev2
      rcases execute_single_entry (env tn) sub tn exe i with heq | ⟨ev3, hev3, ho, htx⟩
      · exact h ev2 (heq ▸ hev2)
      · rw [hev3] at hev2
        obtain rfl := Option.some.inj hev2
        exact ⟨ho, htx⟩
    unfold execute_loop at hev
    rcases hE : execute_single (env tn) sub tn exe with ⟨res, sub2, cnt⟩
    rw [hE] at hev hstep
    cases res with
    | ret b =>
      cases b
      · exact hstep ev (by simpa using hev)
      · exact ih sub2 i (fun e he => hstep e he) ev (by simpa using hev)
    | jobException => exact hstep ev (by simpa using hev)
    | typeError => exact hstep ev (by simpa using hev)
    | indexError => exact hstep ev (by simpa using hev)
    | keyError => exact hstep ev (by simpa using hev)

lemma execute_loop_ret_true_sets (env : Nat → ExecEnv) (exe : String) :
    ∀ (idxs : List Nat) (sub : Submission),
    (execute_loop env exe idxs sub).1 = PyResult.ret true →
    ∀ i ∈ idxs, ∀ ev, (execute_loop env exe idxs sub).2.evaluations[i]? = some ev →
      ev.outcome.isSome ∧ ev.text.isSome := by
  intro idxs
  induction idxs with
  | nil => intro sub h i hi; cases hi
  | cons tn rest ih =>
    intro sub htrue i hi ev hev
    unfold execute_loop at htrue hev
    rcases hE : execute_single (env tn) sub tn exe with ⟨res, sub2, cnt⟩
    rw [hE] at htrue hev
    cases res with
    | ret b =>
      cases b with
      | false => simp [finish_evaluation] at htrue
      | true =>
        rcases List.mem_cons.mp hi with rfl | hi2
        · have hset : ∀ e, sub2.evaluations[i]? = some e →
              e.outcome.isSome ∧ e.text.isSome := by
            intro e he
            rcases execute_single_sets (env i) sub i exe (by rw [hE]) with ⟨e2, he2, ho, htx⟩
            rw [hE] at he2
            have he2b : sub2.evaluations[i]? = some e2 := he2
            rw [he2b] at he
            obtain rfl := Option.some.inj he
            exact ⟨ho, htx⟩
          exact execute_loop_preserves_set env exe rest sub2 i hset ev (by simpa using hev)
        · exact ih sub2 (by simpa using htrue) i hi2 ev (by simpa using hev)
    | jobException => simp at htrue
    | typeError => simp at htrue
    | indexError => simp at htrue
    | keyError => simp at htrue

/-- C5 (amended): for a submission with exactly one executable that starts
with at most as many evaluation records as the task has testcases, a `True`
return from `execute` leaves exactly one evaluation record per testcase,
each with its outcome and text written. -/
theorem execute_evaluation_count (env : Nat → ExecEnv) (sub : Submission)
    (sess : List Staged)
    (hexe : sub.executables.length = 1)
    (hle : sub.evaluations.length ≤ sub.task.testcases.length)
    (htrue : (execute env sub sess).1 = PyResult.ret true) :
    (execute env sub sess).2.1.evaluations.length = sub.task.testcases.length ∧
    ∀ (i : Nat) (ev : Evaluation), (execute env sub sess).2.1.evaluations[i]? = some ev →
      ev.outcome.isSome ∧ ev.text.isSome := by
  have hpad := add_empty_evaluations_spec
    (List.range' sub.evaluations.length
      (sub.task.testcases.length - sub.evaluations.length)) sub sess
  unfold execute at htrue ⊢
  rw [if_neg (by simp [hexe])] at htrue ⊢
  have hlen1 : (add_empty_evaluations sub sess
      (List.range' sub.evaluations.length
        (sub.task.testcases.length - sub.evaluations.length))).1.evaluations.length =
      sub.task.testcases.length := by
    rw [hpad.1]
    simp only [List.length_append, List.length_map, List.length_range']
    omega
  have htask : (add_empty_evaluations sub sess
      (List.range' sub.evaluations.length
        (sub.task.testcases.length - sub.evaluations.length))).1.task = sub.task := by
    rw [hpad.1]
  constructor
  · show (execute_loop env _ _ _).2.evaluations.length = _
    rw [execute_loop_length, hlen1]
  · intro i ev hev
    have hev2 : (execute_loop env (sub.executables.headD ("", "")).1
        (List.range (add_empty_evaluations sub sess
          (List.range' sub.evaluations.length
            (sub.task.testcases.length - sub.evaluations.length))).1.task.testcases.length)
        (add_empty_evaluations sub sess
          (List.range' sub.evaluations.length
            (sub.task.testcases.length - sub.evaluations.length))).1).2.evaluations[i]? =
        some ev := hev
    have hi : i < sub.task.testcases.length := by
      have hlt := (List.getElem?_eq_some_iff.mp hev2).1
      rwa [execute_loop_length, hlen1] at hlt
    exact execute_loop_ret_true_sets env (sub.executables.headD ("", "")).1 _ _ htrue i
      (by rw [htask]; exact List.mem_range.mpr hi) ev hev2

/-- C5 (witness): a concrete submission with one evaluation and one testcase
evaluated successfully. -/
theorem execute_evaluation_count_witness :
    noGraderSub.executables.length = 1 ∧
    noGraderSub.evaluations.length ≤ noGraderSub.task.testcases.length ∧
    (execute (fun _ => timeoutExecEnv) noGraderSub []).1 = PyResult.ret true ∧
    ((execute (fun _ => timeoutExecEnv) noGraderSub []).2.1.evaluations.length =
      noGraderSub.task.testcases.length ∧
    ∀ (i : Nat) (ev : Evaluation),
      (execute (fun _ => timeoutExecEnv) noGraderSub []).2.1.evaluations[i]? = some ev →
      ev.outcome.isSome ∧ ev.text.isSome) :=
  ⟨rfl, by decide, rfl,
   execute_evaluation_count (fun _ => timeoutExecEnv) noGraderSub [] rfl (by decide) rfl⟩

/-- C5 (counterexample): a submission that starts with two evaluation records
while its task has one testcase keeps both records through a successful
`execute` run, so the final evaluation count differs from the testcase
count, refuting the unconditional claim. -/
theorem excess_evaluations_cex :
    (execute (fun _ => timeoutExecEnv) twoEvalSub []).1 = PyResult.ret true ∧
    (execute (fun _ => timeoutExecEnv) twoEvalSub []).2.1.evaluations.length = 2 ∧
    twoEvalSub.task.testcases.length = 1 :=
  ⟨rfl, rfl, rfl⟩

end CMS
